import Mathlib

/-!
Verification of the grid-to-mesh core of object3d.py: a shallow embedding of
the Object3D class (vertex grid builder, face topology builder, mesh writer)
with machine floats modelled as rationals, numpy arrays as lists, and Python
exceptions as Except errors.
-/

set_option linter.unusedVariables false

namespace Object3dSpec

/-- Coordinate triple standing in for a row of the Nx3 vertex array. -/
abbrev Vec3 := ℚ × ℚ × ℚ

/-- The four coefficients of the GDAL affine transform actually used by the
code: transform[0] = originX, transform[1] = pixelSizeX, transform[3] = originY,
transform[5] = pixelSizeY. -/
structure GeoTransform where
  originX : ℚ
  pixelSizeX : ℚ
  originY : ℚ
  pixelSizeY : ℚ

/-- The raster handle as the code reads it: RasterXSize, RasterYSize,
GetGeoTransform() and ReadAsArray() (elevation r c is row r, column c of the
single-band elevation matrix). -/
structure Raster where
  width : Nat
  height : Nat
  transform : GeoTransform
  elevation : Nat → Nat → ℚ

/-- Embedding of np.arange(0, n) * s + o : the length-n list of affine
per-index coordinates. -/
def affineCoords (n : Nat) (s o : ℚ) : List ℚ :=
  (List.range n).map fun (i : Nat) => (i : ℚ) * s + o

/-- Embedding of the Python builtin min over a list (the raster dimensions are
positive, so the list is never empty in the code; the empty case is junk). -/
def pyMin : List ℚ → ℚ
  | [] => 0
  | h :: t => t.foldl min h

/-- First component of np.meshgrid(x, y): an ny-by-(length of x) matrix whose
every row is x. -/
def meshgridXX (x : List ℚ) (ny : Nat) : List (List ℚ) :=
  (List.range ny).map fun _ => x

/-- Second component of np.meshgrid(x, y): row r is the constant row
replicating y at r, nx wide. -/
def meshgridYY (y : List ℚ) (nx : Nat) : List (List ℚ) :=
  y.map fun v => List.replicate nx v

/-- Embedding of self.input.ReadAsArray(): the height-by-width elevation
matrix. -/
def elevMatrix (input : Raster) : List (List ℚ) :=
  (List.range input.height).map fun r =>
    (List.range input.width).map fun c => input.elevation r c

/-- Pointwise zip of three equal-length lists into triples. -/
def zip3 : List ℚ → List ℚ → List ℚ → List Vec3
  | a :: as, b :: bs, c :: cs => (a, b, c) :: zip3 as bs cs
  | _, _, _ => []

/-- Embedding of np.vstack((xx, yy, zz)).reshape([3, -1]).transpose() for three
H-by-W matrices: row-major flattening of the stacked (3H)-by-W block groups its
entries into the three rows xx.flatten, yy.flatten, zz.flatten, and transposing zips
those rows into H*W coordinate triples. -/
def stackReshapeTranspose (xx yy zz : List (List ℚ)) : List Vec3 :=
  zip3 xx.flatten yy.flatten zz.flatten

/-- The per-column world X coordinates: np.arange(0, width) * transform[1] +
transform[0]. -/
def rasterX (input : Raster) : List ℚ :=
  affineCoords input.width input.transform.pixelSizeX input.transform.originX

/-- The per-row world Y coordinates: np.arange(0, height) * transform[5] +
transform[3]. -/
def rasterY (input : Raster) : List ℚ :=
  affineCoords input.height input.transform.pixelSizeY input.transform.originY

/-- The offset the code computes when none is supplied:
[min(x), min(y), 0]. -/
def autoOffset (input : Raster) : Vec3 :=
  (pyMin (rasterX input), pyMin (rasterY input), 0)

/-- The vertex array body of create_vertex_array_from_raster, for a fixed
effective offset: x and y are shifted by the offset, meshgridded, the
elevations are shifted by the z offset, and the three matrices are stacked,
reshaped and transposed into the N-by-3 vertex array. -/
def buildVertices (input : Raster) (off : Vec3) : List Vec3 :=
  let x := (rasterX input).map fun v => v - off.1
  let y := (rasterY input).map fun v => v - off.2.1
  let xx := meshgridXX x input.height
  let yy := meshgridYY y input.width
  let zz := (elevMatrix input).map fun row => row.map fun v => v - off.2.2
  stackReshapeTranspose xx yy zz

/-- The anchor index array of create_face_array_from_raster:
np.meshgrid(np.arange(0, width - 1), np.arange(0, height - 1)) gives
aii[r][c] = c and ajj[r][c] = r, so a = (aii + ajj * width).flatten() lists
c + r * width row-major. -/
def faceAnchors (width height : Nat) : List Nat :=
  ((List.range (height - 1)).map fun r =>
    (List.range (width - 1)).map fun c => c + r * width).flatten

/-- The face array body of create_face_array_from_raster. In quad mode each
anchor yields one 4-tuple row; in triangle mode the stacked 6-row block is
transposed and reshaped to [-1, 3], i.e. each anchor yields the two consecutive
triples (a, a+width, a+width+1) and (a, a+width+1, a+1). Finally every index is
shifted to 1-based by adding 1. -/
def buildFaces (width height : Nat) (quad : Bool) : List (List Nat) :=
  let a := faceAnchors width height
  let faces :=
    if quad then
      a.map fun k => [k, k + width, k + width + 1, k + 1]
    else
      (a.map fun k =>
        [[k, k + width, k + width + 1], [k, k + width + 1, k + 1]]).flatten
  faces.map fun f => f.map fun i => i + 1

/-- The state of the self.vertices attribute: the constructor leaves a plain
Python list, create_vertex_array_from_raster stores a numpy N-by-3 array. The
distinction matters because numpy fancy indexing vertices[:, colorder] raises
TypeError on a plain list. -/
inductive VertStore where
  | pyList (l : List Vec3)
  | npArray (l : List Vec3)
deriving DecidableEq

/-- len(self.vertices). -/
def VertStore.len : VertStore → Nat
  | .pyList l => l.length
  | .npArray l => l.length

/-- The rows stored, regardless of the Python container type. -/
def VertStore.toList : VertStore → List Vec3
  | .pyList l => l
  | .npArray l => l

/-- The Object3D instance attributes (input handle passed separately where the
methods read self.input). -/
structure Object3D where
  inputfile : String
  offset : Option Vec3
  quad : Bool
  vertices : VertStore
  faces : List (List Nat)
deriving DecidableEq

/-- Object3D.__init__: empty input file, no offset, triangle mode, plain empty
lists for vertices and faces. -/
def Object3D.init : Object3D :=
  { inputfile := "", offset := none, quad := false,
    vertices := .pyList [], faces := [] }

/-- Object3D.create_vertex_array_from_raster: resolves the offset (auto when
self.offset is None), stores it back on self, and stores the vertex array. -/
def Object3D.create_vertex_array_from_raster (o : Object3D) (input : Raster) :
    Object3D :=
  let offset :=
    match o.offset with
    | none => autoOffset input
    | some off => off
  { o with offset := some offset,
           vertices := .npArray (buildVertices input offset) }

/-- Object3D.create_face_array_from_raster: stores the face array built from
the raster dimensions and the quad flag. -/
def Object3D.create_face_array_from_raster (o : Object3D) (input : Raster) :
    Object3D :=
  { o with faces := buildFaces input.width input.height o.quad }

/-- Object3D.from_raster: sets the attributes, then runs the vertex builder
followed by the face builder. The raster read from the file is the input
argument (file I/O is outside the embedding). -/
def Object3D.from_raster (input : Raster) (filename : String)
    (offset : Option Vec3) (quad : Bool) : Object3D :=
  (({ Object3D.init with
      inputfile := filename, offset := offset,
      quad := quad }).create_vertex_array_from_raster input
    ).create_face_array_from_raster input

/-- The Python exceptions write_obj can raise in the embedded fragment. -/
inductive PyError where
  | indexError
  | typeError
deriving DecidableEq

/-- Embedding of "xyz".find(c): the index of c in "xyz", -1 when absent. -/
def xyzFind (c : Char) : Int :=
  if c = 'x' then 0 else if c = 'y' then 1 else if c = 'z' then 2 else -1

/-- Numpy column selection on one row of the N-by-3 array, with Python
negative-index semantics (an index in [-3, -1] counts from the end; anything
outside [-3, 2] raises IndexError). -/
def npCol (v : Vec3) (i : Int) : Except PyError ℚ :=
  if i = 0 ∨ i = -3 then .ok v.1
  else if i = 1 ∨ i = -2 then .ok v.2.1
  else if i = 2 ∨ i = -1 then .ok v.2.2
  else .error .indexError

/-- Embedding of self.vertices[:, colorder]: column reordering of every row; a
plain Python list does not support tuple indexing and raises TypeError. -/
def VertStore.colReorder : VertStore → List Int →
    Except PyError (List (List ℚ))
  | .pyList _, _ => .error .typeError
  | .npArray l, colorder => l.mapM fun v => colorder.mapM fun i => npCol v i

/-- Stand-in for the Python locale-independent str() of a coordinate value
(digit-exact float formatting is outside the embedding; the claims are about
line and column structure). -/
def qstr (q : ℚ) : String :=
  if q.den = 1 then toString q.num
  else toString q.num ++ "/" ++ toString q.den

/-- One vertex record: "v " followed by the space-separated reordered
coordinates. -/
def vLine (cols : List ℚ) : String :=
  "v " ++ String.intercalate " " (cols.map qstr)

/-- One face record: "f " followed by the space-separated 1-based indices. -/
def fLine (face : List Nat) : String :=
  "f " ++ String.intercalate " " (face.map toString)

/-- The four-line header written before the vertex block. -/
def objHeader (inputfile order : String) (nvertices nfaces : Nat) : String :=
  "# Tessellation generated from file: \x27" ++ inputfile ++ "\x27\n" ++
  "# vertex coordinates order: " ++ order ++ "\n" ++
  "# Vertices: " ++ toString nvertices ++ "\n" ++
  "# Faces: " ++ toString nfaces ++ "\n"

/-- Object3D.write_obj: computes colorder from the first three characters of
the order string (IndexError when it is shorter), then writes the header, the
newline-joined vertex records, one separating newline character, and the
newline-joined face records. The output stream is modelled as the full string
written. -/
def Object3D.write_obj (o : Object3D) (order : String) :
    Except PyError String :=
  match (order.toList)[0]?, (order.toList)[1]?, (order.toList)[2]? with
  | some o0, some o1, some o2 =>
    match o.vertices.colReorder [xyzFind o0, xyzFind o1, xyzFind o2] with
    | .error e => .error e
    | .ok rows =>
      .ok (objHeader o.inputfile order o.vertices.len o.faces.length
        ++ String.intercalate "\n" (rows.map vLine)
        ++ "\n"
        ++ String.intercalate "\n" (o.faces.map fLine))
  | _, _, _ => .error .indexError

/-- The concrete 2-by-2 scenario of the spec: origin (0, 0), pixel size
(1, -1), elevations [[10, 20], [30, 40]]. -/
def demoRaster : Raster :=
  { width := 2, height := 2,
    transform := { originX := 0, pixelSizeX := 1, originY := 0,
                   pixelSizeY := -1 },
    elevation := fun r c => (([[10, 20], [30, 40]].getD r []).getD c 0 : ℚ) }

/-- A raster with a degenerate transform: pixelSizeX = 0. -/
def flatRaster : Raster :=
  { width := 2, height := 2,
    transform := { originX := 5, pixelSizeX := 0, originY := 7,
                   pixelSizeY := -1 },
    elevation := fun r c => ((r * 2 + c : Nat) : ℚ) }

/-- A degenerate single-column raster: width 1, height 3. -/
def lineRaster : Raster :=
  { width := 1, height := 3,
    transform := { originX := 2, pixelSizeX := 1, originY := 9,
                   pixelSizeY := -3 },
    elevation := fun r c => ((r + c : Nat) : ℚ) }

/-- The vertex component named by an axis character: the column the code
selects is "xyz".find(order[j]), and a character outside "xyz" gives find =
-1, which Python negative indexing resolves to the last (z) column. -/
def axisComp (v : Vec3) (c : Char) : ℚ :=
  if c = 'x' then v.1 else if c = 'y' then v.2.1 else v.2.2

/-- The object state from_raster produces on demoRaster with no offset in
triangle mode (offset (0, -1, 0), four vertices, two triangles). -/
def demoBuilt : Object3D :=
  { inputfile := "dem.tif", offset := some (0, -1, 0), quad := false,
    vertices := .npArray [(0, 1, 10), (1, 1, 20), (0, 0, 30), (1, 0, 40)],
    faces := [[1, 3, 4], [1, 4, 2]] }

/-! ### List-level lemmas about the numpy operations -/

theorem zip3_length (a b c : List ℚ) (n : Nat) (ha : a.length = n)
    (hb : b.length = n) (hc : c.length = n) : (zip3 a b c).length = n := by
  induction a generalizing b c n with
  | nil => cases n with
    | zero => cases b <;> cases c <;> simp [zip3]
    | succ n => simp at ha
  | cons x as ih =>
    cases n with
    | zero => simp at ha
    | succ n =>
      cases b with
      | nil => simp at hb
      | cons y bs =>
        cases c with
        | nil => simp at hc
        | cons z cs =>
          simp only [zip3, List.length_cons]
          exact congrArg Nat.succ (ih bs cs n (by simpa using ha)
            (by simpa using hb) (by simpa using hc))

theorem zip3_getElem (xs ys zs : List ℚ) (k : Nat) (x y z : ℚ)
    (ha : xs[k]? = some x) (hb : ys[k]? = some y) (hc : zs[k]? = some z) :
    (zip3 xs ys zs)[k]? = some (x, y, z) := by
  induction xs generalizing ys zs k with
  | nil => simp at ha
  | cons a0 as ih =>
    cases ys with
    | nil => simp at hb
    | cons b0 bs =>
      cases zs with
      | nil => simp at hc
      | cons c0 cs =>
        cases k with
        | zero =>
          simp only [List.getElem?_cons_zero, Option.some.injEq] at ha hb hc
          simp [zip3, ha, hb, hc]
        | succ k =>
          simp only [List.getElem?_cons_succ] at ha hb hc
          simpa [zip3] using ih bs cs k ha hb hc

theorem zip3_fst_mem (xs ys zs : List ℚ) (v : Vec3) (h : v ∈ zip3 xs ys zs) :
    v.1 ∈ xs := by
  induction xs generalizing ys zs with
  | nil => cases ys <;> cases zs <;> simp [zip3] at h
  | cons a0 as ih =>
    cases ys with
    | nil => simp [zip3] at h
    | cons b0 bs =>
      cases zs with
      | nil => simp [zip3] at h
      | cons c0 cs =>
        simp only [zip3, List.mem_cons] at h
        rcases h with h | h
        · subst h; simp
        · exact List.mem_cons_of_mem _ (ih bs cs h)

theorem flatten_length_uniform {α : Type} (m : List (List α)) (w : Nat)
    (hw : ∀ row ∈ m, row.length = w) : m.flatten.length = m.length * w := by
  induction m with
  | nil => simp
  | cons row rest ih =>
    simp only [List.flatten_cons, List.length_append, List.length_cons]
    rw [hw row (List.mem_cons_self _ _), ih fun r hr => hw r (List.mem_cons_of_mem _ hr)]
    ring

theorem flatten_getElem_uniform {α : Type} (m : List (List α)) (w : Nat)
    (hw : ∀ row ∈ m, row.length = w) (r c : Nat) (row : List α)
    (hr : m[r]? = some row) (hc : c < w) :
    m.flatten[r * w + c]? = row[c]? := by
  induction m generalizing r with
  | nil => simp at hr
  | cons row0 rest ih =>
    have hlen0 : row0.length = w := hw row0 (List.mem_cons_self _ _)
    cases r with
    | zero =>
      simp only [List.getElem?_cons_zero, Option.some.injEq] at hr
      subst hr
      simp only [Nat.zero_mul, Nat.zero_add, List.flatten_cons]
      rw [List.getElem?_append]
      simp [hlen0, hc]
    | succ r =>
      simp only [List.getElem?_cons_succ] at hr
      have hidx : row0.length ≤ (r + 1) * w + c := by
        rw [hlen0]; calc w ≤ (r + 1) * w := Nat.le_mul_of_pos_left w (Nat.succ_pos r)
          _ ≤ (r + 1) * w + c := Nat.le_add_right _ _
      rw [List.flatten_cons, List.getElem?_append_right hidx]
      have : (r + 1) * w + c - row0.length = r * w + c := by
        rw [hlen0]; rw [Nat.succ_mul]; omega
      rw [this]
      exact ih (fun rr hrr => hw rr (List.mem_cons_of_mem _ hrr)) r hr

/-! ### Lemmas about the Python builtin min -/

theorem foldl_min_le_init (t : List ℚ) (acc : ℚ) : t.foldl min acc ≤ acc := by
  induction t generalizing acc with
  | nil => simp
  | cons a t ih =>
    simp only [List.foldl_cons]
    exact le_trans (ih (min acc a)) (min_le_left _ _)

theorem foldl_min_le_mem (t : List ℚ) (acc q : ℚ) (h : q ∈ t) :
    t.foldl min acc ≤ q := by
  induction t generalizing acc with
  | nil => simp at h
  | cons a t ih =>
    simp only [List.foldl_cons]
    rcases List.mem_cons.mp h with rfl | h
    · exact le_trans (foldl_min_le_init t (min acc q)) (min_le_right _ _)
    · exact ih (min acc a) h

theorem foldl_min_mem (t : List ℚ) (acc : ℚ) :
    t.foldl min acc = acc ∨ t.foldl min acc ∈ t := by
  induction t generalizing acc with
  | nil => simp
  | cons a t ih =>
    simp only [List.foldl_cons]
    rcases ih (min acc a) with h | h
    · rcases min_choice acc a with hm | hm
      · left; rw [h, hm]
      · right; rw [h, hm]; exact List.mem_cons_self _ _
    · right; exact List.mem_cons_of_mem _ h

theorem pyMin_le (l : List ℚ) (q : ℚ) (h : q ∈ l) : pyMin l ≤ q := by
  cases l with
  | nil => simp at h
  | cons a t =>
    rcases List.mem_cons.mp h with rfl | h
    · exact foldl_min_le_init t q
    · exact foldl_min_le_mem t a q h

theorem pyMin_mem (l : List ℚ) (h : l ≠ []) : pyMin l ∈ l := by
  cases l with
  | nil => exact absurd rfl h
  | cons a t =>
    rcases foldl_min_mem t a with h' | h'
    · rw [pyMin, h']; exact List.mem_cons_self _ _
    · exact List.mem_cons_of_mem _ h'

/-! ### Lemmas about the vertex grid builder -/

theorem affineCoords_length (n : Nat) (s o : ℚ) :
    (affineCoords n s o).length = n := by
  rw [affineCoords, List.length_map, List.length_range]

theorem affineCoords_getElem (n : Nat) (s o : ℚ) (i : Nat) (hi : i < n) :
    (affineCoords n s o)[i]? = some ((i : ℚ) * s + o) := by
  rw [affineCoords, List.getElem?_map, List.getElem?_range hi]
  rfl

theorem affineCoords_mem (n : Nat) (s o : ℚ) (q : ℚ) :
    q ∈ affineCoords n s o ↔ ∃ i, i < n ∧ q = (i : ℚ) * s + o := by
  rw [affineCoords]
  constructor
  · intro h
    rcases List.mem_map.mp h with ⟨i, hi, rfl⟩
    exact ⟨i, List.mem_range.mp hi, rfl⟩
  · rintro ⟨i, hi, rfl⟩
    exact List.mem_map.mpr ⟨i, List.mem_range.mpr hi, rfl⟩

theorem buildVertices_length (input : Raster) (off : Vec3) :
    (buildVertices input off).length = input.height * input.width := by
  have hx : ∀ row ∈ meshgridXX ((rasterX input).map fun v => v - off.1)
      input.height, row.length = input.width := by
    intro row hrow
    simp only [meshgridXX, List.mem_map, List.mem_range] at hrow
    obtain ⟨_, _, rfl⟩ := hrow
    simp [rasterX, affineCoords_length]
  have hy : ∀ row ∈ meshgridYY ((rasterY input).map fun v => v - off.2.1)
      input.width, row.length = input.width := by
    intro row hrow
    simp only [meshgridYY, List.mem_map] at hrow
    obtain ⟨_, _, rfl⟩ := hrow
    simp
  have hz : ∀ row ∈ (elevMatrix input).map (fun row => row.map fun v =>
      v - off.2.2), row.length = input.width := by
    intro row hrow
    simp only [elevMatrix, List.map_map, List.mem_map, List.mem_range] at hrow
    obtain ⟨_, _, rfl⟩ := hrow
    simp
  unfold buildVertices stackReshapeTranspose
  refine zip3_length _ _ _ (input.height * input.width) ?_ ?_ ?_
  · rw [flatten_length_uniform _ input.width hx]
    simp [meshgridXX]
  · rw [flatten_length_uniform _ input.width hy]
    simp [meshgridYY, rasterY, affineCoords_length]
  · rw [flatten_length_uniform _ input.width hz]
    simp [elevMatrix]

theorem buildVertices_getElem (input : Raster) (off : Vec3) (r c : Nat)
    (hr : r < input.height) (hc : c < input.width) :
    (buildVertices input off)[r * input.width + c]? = some
      ((c : ℚ) * input.transform.pixelSizeX + input.transform.originX - off.1,
       (r : ℚ) * input.transform.pixelSizeY + input.transform.originY - off.2.1,
       input.elevation r c - off.2.2) := by
  unfold buildVertices stackReshapeTranspose
  refine zip3_getElem _ _ _ _ _ _ _ ?_ ?_ ?_
  · -- xx.flatten: row r is the shifted x list, entry c
    have hw : ∀ row ∈ meshgridXX ((rasterX input).map fun v => v - off.1)
        input.height, row.length = input.width := by
      intro row hrow
      simp only [meshgridXX, List.mem_map, List.mem_range] at hrow
      obtain ⟨_, _, rfl⟩ := hrow
      simp [rasterX, affineCoords_length]
    have hrow : (meshgridXX ((rasterX input).map fun v => v - off.1)
        input.height)[r]? = some ((rasterX input).map fun v => v - off.1) := by
      simp [meshgridXX, List.getElem?_replicate, hr]
    rw [flatten_getElem_uniform _ input.width hw r c _ hrow hc]
    rw [List.getElem?_map, rasterX, affineCoords_getElem _ _ _ c hc]
    rfl
  · -- yy.flatten: row r replicates the shifted y at r
    have hw : ∀ row ∈ meshgridYY ((rasterY input).map fun v => v - off.2.1)
        input.width, row.length = input.width := by
      intro row hrow
      simp only [meshgridYY, List.mem_map] at hrow
      obtain ⟨_, _, rfl⟩ := hrow
      simp
    have hrow : (meshgridYY ((rasterY input).map fun v => v - off.2.1)
        input.width)[r]? = some (List.replicate input.width
          ((r : ℚ) * input.transform.pixelSizeY + input.transform.originY
            - off.2.1)) := by
      simp only [meshgridYY]
      rw [List.getElem?_map, List.getElem?_map, rasterY,
        affineCoords_getElem _ _ _ r hr]
      rfl
    rw [flatten_getElem_uniform _ input.width hw r c _ hrow hc]
    simp [List.getElem?_replicate, hc]
  · -- zz.flatten: row r of the shifted elevation matrix, entry c
    have hw : ∀ row ∈ (elevMatrix input).map (fun row => row.map fun v =>
        v - off.2.2), row.length = input.width := by
      intro row hrow
      simp only [elevMatrix, List.map_map, List.mem_map, List.mem_range] at hrow
      obtain ⟨_, _, rfl⟩ := hrow
      simp
    have hrow : ((elevMatrix input).map (fun row => row.map fun v =>
        v - off.2.2))[r]? = some ((List.range input.width).map fun cc =>
          input.elevation r cc - off.2.2) := by
      simp only [elevMatrix, List.map_map]
      rw [List.getElem?_map, List.getElem?_range hr]
      simp [Function.comp, List.map_map]
    rw [flatten_getElem_uniform _ input.width hw r c _ hrow hc]
    rw [List.getElem?_map, List.getElem?_range hc]
    rfl

/-! ### Projections of the build pipeline -/

theorem from_raster_offset (input : Raster) (fname : String)
    (offset : Option Vec3) (quad : Bool) :
    (Object3D.from_raster input fname offset quad).offset =
      some (match offset with
            | none => autoOffset input
            | some off => off) := by
  cases offset <;> rfl

theorem from_raster_vertices (input : Raster) (fname : String)
    (offset : Option Vec3) (quad : Bool) :
    (Object3D.from_raster input fname offset quad).vertices =
      .npArray (buildVertices input
        (match offset with
         | none => autoOffset input
         | some off => off)) := by
  cases offset <;> rfl

theorem from_raster_faces (input : Raster) (fname : String)
    (offset : Option Vec3) (quad : Bool) :
    (Object3D.from_raster input fname offset quad).faces =
      buildFaces input.width input.height quad := by
  cases offset <;> rfl

theorem rasterX_ne_nil (input : Raster) (hW : 1 ≤ input.width) :
    rasterX input ≠ [] := by
  apply List.ne_nil_of_length_pos
  rw [rasterX, affineCoords_length]
  omega

theorem rasterY_ne_nil (input : Raster) (hH : 1 ≤ input.height) :
    rasterY input ≠ [] := by
  apply List.ne_nil_of_length_pos
  rw [rasterY, affineCoords_length]
  omega

/-- C1: building with no supplied offset produces exactly width*height
vertices in row-major order, the vertex at flat index r*width + c being
(c*pixelSizeX + originX - ox, r*pixelSizeY + originY - oy,
elevation r c - oz); when no offset is supplied, the effective offset has
oz = 0 (z never auto-offset) and ox, oy are the minima of the per-column x
and per-row y world coordinates; a supplied offset is used as given. -/
theorem c1_vertex_grid (input : Raster) (fname : String) (quad : Bool)
    (offset : Option Vec3) (hW : 1 ≤ input.width) (hH : 1 ≤ input.height) :
    ∃ ox oy oz : ℚ,
      (Object3D.from_raster input fname offset quad).offset =
        some (ox, oy, oz) ∧
      (∀ v, offset = some v → (ox, oy, oz) = v) ∧
      (offset = none →
        oz = 0 ∧
        (∀ cc, cc < input.width → ox ≤ (cc : ℚ) * input.transform.pixelSizeX
          + input.transform.originX) ∧
        (∃ cc, cc < input.width ∧ ox = (cc : ℚ) * input.transform.pixelSizeX
          + input.transform.originX) ∧
        (∀ rr, rr < input.height → oy ≤ (rr : ℚ) * input.transform.pixelSizeY
          + input.transform.originY) ∧
        (∃ rr, rr < input.height ∧ oy = (rr : ℚ) * input.transform.pixelSizeY
          + input.transform.originY)) ∧
      ∃ l, (Object3D.from_raster input fname offset quad).vertices =
          .npArray l ∧
        l.length = input.width * input.height ∧
        ∀ r c, r < input.height → c < input.width →
          l[r * input.width + c]? = some
            ((c : ℚ) * input.transform.pixelSizeX + input.transform.originX
              - ox,
             (r : ℚ) * input.transform.pixelSizeY + input.transform.originY
              - oy,
             input.elevation r c - oz) := by
  cases offset with
  | none =>
    refine ⟨(autoOffset input).1, (autoOffset input).2.1, (autoOffset input).2.2,
      ?_, ?_, ?_, ?_⟩
    · rw [from_raster_offset]
    · intro v hv; cases hv
    · intro _
      refine ⟨rfl, ?_, ?_, ?_, ?_⟩
      · intro cc hcc
        exact pyMin_le _ _ ((affineCoords_mem _ _ _ _).mpr ⟨cc, hcc, rfl⟩)
      · have hmem := pyMin_mem _ (rasterX_ne_nil input hW)
        rcases (affineCoords_mem _ _ _ _).mp hmem with ⟨cc, hcc, hq⟩
        exact ⟨cc, hcc, hq⟩
      · intro rr hrr
        exact pyMin_le _ _ ((affineCoords_mem _ _ _ _).mpr ⟨rr, hrr, rfl⟩)
      · have hmem := pyMin_mem _ (rasterY_ne_nil input hH)
        rcases (affineCoords_mem _ _ _ _).mp hmem with ⟨rr, hrr, hq⟩
        exact ⟨rr, hrr, hq⟩
    · refine ⟨buildVertices input (autoOffset input), ?_, ?_, ?_⟩
      · rw [from_raster_vertices]
      · rw [buildVertices_length]; ring
      · intro r c hr hc
        exact buildVertices_getElem input (autoOffset input) r c hr hc
  | some off =>
    refine ⟨off.1, off.2.1, off.2.2, ?_, ?_, ?_, ?_⟩
    · rw [from_raster_offset]
    · intro v hv
      cases hv; rfl
    · intro h; cases h
    · refine ⟨buildVertices input off, ?_, ?_, ?_⟩
      · rw [from_raster_vertices]
      · rw [buildVertices_length]; ring
      · intro r c hr hc
        exact buildVertices_getElem input off r c hr hc

/-- Closed instantiation of the C1 theorem on the concrete 2-by-2 demo
raster. -/
theorem c1_vertex_grid_witness :
    ∃ ox oy oz : ℚ,
      (Object3D.from_raster demoRaster "dem.tif" none false).offset =
        some (ox, oy, oz) ∧
      (∀ v, (none : Option Vec3) = some v → (ox, oy, oz) = v) ∧
      ((none : Option Vec3) = none →
        oz = 0 ∧
        (∀ cc, cc < demoRaster.width → ox ≤ (cc : ℚ)
          * demoRaster.transform.pixelSizeX + demoRaster.transform.originX) ∧
        (∃ cc, cc < demoRaster.width ∧ ox = (cc : ℚ)
          * demoRaster.transform.pixelSizeX + demoRaster.transform.originX) ∧
        (∀ rr, rr < demoRaster.height → oy ≤ (rr : ℚ)
          * demoRaster.transform.pixelSizeY + demoRaster.transform.originY) ∧
        (∃ rr, rr < demoRaster.height ∧ oy = (rr : ℚ)
          * demoRaster.transform.pixelSizeY + demoRaster.transform.originY)) ∧
      ∃ l, (Object3D.from_raster demoRaster "dem.tif" none false).vertices =
          .npArray l ∧
        l.length = demoRaster.width * demoRaster.height ∧
        ∀ r c, r < demoRaster.height → c < demoRaster.width →
          l[r * demoRaster.width + c]? = some
            ((c : ℚ) * demoRaster.transform.pixelSizeX
              + demoRaster.transform.originX - ox,
             (r : ℚ) * demoRaster.transform.pixelSizeY
              + demoRaster.transform.originY - oy,
             demoRaster.elevation r c - oz) :=
  c1_vertex_grid demoRaster "dem.tif" false none (by decide) (by decide)

/-! ### Lemmas about the face topology builder -/

theorem faceAnchors_length (width height : Nat) :
    (faceAnchors width height).length = (height - 1) * (width - 1) := by
  unfold faceAnchors
  rw [flatten_length_uniform _ (width - 1)]
  · rw [List.length_map, List.length_range]
  · intro row hrow
    rcases List.mem_map.mp hrow with ⟨rr, _, rfl⟩
    rw [List.length_map, List.length_range]

theorem faceAnchors_getElem (width height r c : Nat)
    (hr : r < height - 1) (hc : c < width - 1) :
    (faceAnchors width height)[r * (width - 1) + c]? =
      some (c + r * width) := by
  unfold faceAnchors
  have hw : ∀ row ∈ (List.range (height - 1)).map (fun rr =>
      (List.range (width - 1)).map fun cc => cc + rr * width),
      row.length = width - 1 := by
    intro row hrow
    rcases List.mem_map.mp hrow with ⟨rr, _, rfl⟩
    rw [List.length_map, List.length_range]
  have hrow : ((List.range (height - 1)).map (fun rr =>
      (List.range (width - 1)).map fun cc => cc + rr * width))[r]? =
      some ((List.range (width - 1)).map fun cc => cc + r * width) := by
    rw [List.getElem?_map, List.getElem?_range hr]; rfl
  rw [flatten_getElem_uniform _ (width - 1) hw r c _ hrow hc]
  rw [List.getElem?_map, List.getElem?_range hc]; rfl

theorem faceAnchors_mem (width height k : Nat)
    (h : k ∈ faceAnchors width height) :
    ∃ r c, r < height - 1 ∧ c < width - 1 ∧ k = c + r * width := by
  unfold faceAnchors at h
  rcases List.mem_flatten.mp h with ⟨row, hrow, hk⟩
  rcases List.mem_map.mp hrow with ⟨rr, hr, rfl⟩
  rcases List.mem_map.mp hk with ⟨cc, hc, rfl⟩
  exact ⟨rr, cc, List.mem_range.mp hr, List.mem_range.mp hc, rfl⟩

theorem buildFaces_quad_eq (width height : Nat) :
    buildFaces width height true =
      ((faceAnchors width height).map fun k =>
        [k, k + width, k + width + 1, k + 1]).map
          (fun f => f.map fun i => i + 1) := rfl

theorem buildFaces_tri_eq (width height : Nat) :
    buildFaces width height false =
      (((faceAnchors width height).map fun k =>
        [[k, k + width, k + width + 1], [k, k + width + 1, k + 1]]).flatten
        ).map (fun f => f.map fun i => i + 1) := rfl

theorem buildFaces_quad_length (width height : Nat) :
    (buildFaces width height true).length = (height - 1) * (width - 1) := by
  rw [buildFaces_quad_eq, List.length_map, List.length_map,
    faceAnchors_length]

theorem buildFaces_tri_length (width height : Nat) :
    (buildFaces width height false).length =
      (height - 1) * (width - 1) * 2 := by
  rw [buildFaces_tri_eq, List.length_map]
  rw [flatten_length_uniform _ 2]
  · rw [List.length_map, faceAnchors_length]
  · intro row hrow
    rcases List.mem_map.mp hrow with ⟨k, _, rfl⟩
    rfl

theorem buildFaces_quad_getElem (width height r c : Nat)
    (hr : r < height - 1) (hc : c < width - 1) :
    (buildFaces width height true)[r * (width - 1) + c]? =
      some ((fun k => [k + 1, k + width + 1, k + width + 1 + 1, k + 1 + 1])
        (c + r * width)) := by
  rw [buildFaces_quad_eq, List.map_map, List.getElem?_map,
    faceAnchors_getElem width height r c hr hc]
  rfl

theorem buildFaces_tri_getElem (width height r c : Nat)
    (hr : r < height - 1) (hc : c < width - 1) :
    (buildFaces width height false)[2 * (r * (width - 1) + c)]? =
      some ((fun k => [k + 1, k + width + 1, k + width + 1 + 1])
        (c + r * width)) ∧
    (buildFaces width height false)[2 * (r * (width - 1) + c) + 1]? =
      some ((fun k => [k + 1, k + width + 1 + 1, k + 1 + 1])
        (c + r * width)) := by
  rw [buildFaces_tri_eq]
  have hw : ∀ row ∈ (faceAnchors width height).map (fun k =>
      [[k, k + width, k + width + 1], [k, k + width + 1, k + 1]]),
      row.length = 2 := by
    intro row hrow
    rcases List.mem_map.mp hrow with ⟨k, _, rfl⟩
    rfl
  have hrow : ((faceAnchors width height).map (fun k =>
      [[k, k + width, k + width + 1],
       [k, k + width + 1, k + 1]]))[r * (width - 1) + c]? =
      some (((fun k => [[k, k + width, k + width + 1],
        [k, k + width + 1, k + 1]])) (c + r * width)) := by
    rw [List.getElem?_map, faceAnchors_getElem width height r c hr hc]; rfl
  constructor
  · rw [List.getElem?_map,
      show 2 * (r * (width - 1) + c) = (r * (width - 1) + c) * 2 + 0 by ring,
      flatten_getElem_uniform _ 2 hw (r * (width - 1) + c) 0 _ hrow
        (by omega)]
    rfl
  · rw [List.getElem?_map,
      show 2 * (r * (width - 1) + c) + 1 = (r * (width - 1) + c) * 2 + 1
        by ring,
      flatten_getElem_uniform _ 2 hw (r * (width - 1) + c) 1 _ hrow
        (by omega)]
    rfl

/-- C2: in both modes the face builder walks the anchors (r, c), r in
[0, height-1), c in [0, width-1), in row-major order; with a = r*width + c it
emits at anchor position r*(width-1) + c the quad (a, a+width, a+width+1,
a+1), or in triangle mode the two consecutive triangles (a, a+width,
a+width+1) then (a, a+width+1, a+1), every stored index being the 0-based
index plus 1. -/
theorem c2_face_topology (input : Raster) (fname : String)
    (offset : Option Vec3) (hW : 2 ≤ input.width) (hH : 2 ≤ input.height) :
    ∀ r c, r < input.height - 1 → c < input.width - 1 →
      ((Object3D.from_raster input fname offset true).faces)[r
          * (input.width - 1) + c]? =
        some [r * input.width + c + 1, r * input.width + c + input.width + 1,
              r * input.width + c + input.width + 2,
              r * input.width + c + 2] ∧
      ((Object3D.from_raster input fname offset false).faces)[2
          * (r * (input.width - 1) + c)]? =
        some [r * input.width + c + 1, r * input.width + c + input.width + 1,
              r * input.width + c + input.width + 2] ∧
      ((Object3D.from_raster input fname offset false).faces)[2
          * (r * (input.width - 1) + c) + 1]? =
        some [r * input.width + c + 1,
              r * input.width + c + input.width + 2,
              r * input.width + c + 2] := by
  intro r c hr hc
  rw [from_raster_faces, from_raster_faces]
  rcases buildFaces_tri_getElem input.width input.height r c hr hc with
    ⟨ht1, ht2⟩
  refine ⟨?_, ?_, ?_⟩
  · rw [buildFaces_quad_getElem input.width input.height r c hr hc]
    refine congrArg some ?_
    simp only [List.cons.injEq, and_true]
    refine ⟨by ring, by ring, by ring, by ring⟩
  · rw [ht1]
    refine congrArg some ?_
    simp only [List.cons.injEq, and_true]
    refine ⟨by ring, by ring, by ring⟩
  · rw [ht2]
    refine congrArg some ?_
    simp only [List.cons.injEq, and_true]
    refine ⟨by ring, by ring, by ring⟩

/-- Closed instantiation of the C2 theorem on the demo raster at anchor
(0, 0). -/
theorem c2_face_topology_witness :
    ((Object3D.from_raster demoRaster "dem.tif" none true).faces)[0]? =
        some [1, 3, 4, 2] ∧
    ((Object3D.from_raster demoRaster "dem.tif" none false).faces)[0]? =
        some [1, 3, 4] ∧
    ((Object3D.from_raster demoRaster "dem.tif" none false).faces)[1]? =
        some [1, 4, 2] := by
  have h := c2_face_topology demoRaster "dem.tif" none (by decide) (by decide)
    0 0 (by decide) (by decide)
  simpa using h

/-- C3: the built object always has width*height vertices in either topology
mode; quad mode yields (width-1)*(height-1) faces, triangle mode twice that;
a degenerate grid (width = 1 or height = 1) yields 0 faces in both modes. -/
theorem c3_counts (input : Raster) (fname : String) (offset : Option Vec3)
    (hW : 1 ≤ input.width) (hH : 1 ≤ input.height) :
    (∀ quad, (Object3D.from_raster input fname offset quad).vertices.len =
      input.width * input.height) ∧
    (Object3D.from_raster input fname offset true).faces.length =
      (input.width - 1) * (input.height - 1) ∧
    (Object3D.from_raster input fname offset false).faces.length =
      2 * ((input.width - 1) * (input.height - 1)) ∧
    ((input.width = 1 ∨ input.height = 1) →
      (Object3D.from_raster input fname offset true).faces.length = 0 ∧
      (Object3D.from_raster input fname offset false).faces.length = 0) := by
  have hq : (Object3D.from_raster input fname offset true).faces.length =
      (input.width - 1) * (input.height - 1) := by
    rw [from_raster_faces, buildFaces_quad_length]; ring
  have ht : (Object3D.from_raster input fname offset false).faces.length =
      2 * ((input.width - 1) * (input.height - 1)) := by
    rw [from_raster_faces, buildFaces_tri_length]; ring
  refine ⟨?_, hq, ht, ?_⟩
  · intro quad
    rw [from_raster_vertices]
    show (buildVertices input _).length = _
    rw [buildVertices_length]; ring
  · intro h
    constructor
    · rw [hq]
      rcases h with h | h <;> rw [h] <;> simp
    · rw [ht]
      rcases h with h | h <;> rw [h] <;> simp

/-- Closed instantiation of the C3 theorem on the degenerate width-1
raster. -/
theorem c3_counts_witness :
    (∀ quad, (Object3D.from_raster lineRaster "line.tif" none quad
      ).vertices.len = lineRaster.width * lineRaster.height) ∧
    (Object3D.from_raster lineRaster "line.tif" none true).faces.length =
      (lineRaster.width - 1) * (lineRaster.height - 1) ∧
    (Object3D.from_raster lineRaster "line.tif" none false).faces.length =
      2 * ((lineRaster.width - 1) * (lineRaster.height - 1)) ∧
    ((lineRaster.width = 1 ∨ lineRaster.height = 1) →
      (Object3D.from_raster lineRaster "line.tif" none true
        ).faces.length = 0 ∧
      (Object3D.from_raster lineRaster "line.tif" none false
        ).faces.length = 0) :=
  c3_counts lineRaster "line.tif" none (by decide) (by decide)

/-- Arithmetic core of the face index bound: any of the four corner indices of
an anchored 2-by-2 neighborhood, shifted to 1-based, lies in
[1, width * height]. -/
theorem anchor_index_bound (width height r cc j : Nat)
    (hr : r < height - 1) (hcc : cc < width - 1)
    (hj : j = cc + r * width ∨ j = cc + r * width + width ∨
          j = cc + r * width + width + 1 ∨ j = cc + r * width + 1) :
    1 ≤ j + 1 ∧ j + 1 ≤ width * height := by
  have hw2 : cc + 2 ≤ width := by omega
  have hh2 : r + 2 ≤ height := by omega
  have h1 : (r + 2) * width ≤ height * width :=
    Nat.mul_le_mul_right _ hh2
  have h2 : (r + 2) * width = r * width + 2 * width := by ring
  have h3 : width * height = height * width := by ring
  omega

/-- C8: every index of every face of the built object lies within
[1, width * height], the number of vertices, in either topology mode. -/
theorem c8_face_index_range (input : Raster) (fname : String)
    (offset : Option Vec3) (quad : Bool) :
    ∀ f ∈ (Object3D.from_raster input fname offset quad).faces,
      ∀ i ∈ f, 1 ≤ i ∧ i ≤ input.width * input.height := by
  intro f hf i hi
  rw [from_raster_faces] at hf
  cases quad with
  | true =>
    rw [buildFaces_quad_eq] at hf
    rcases List.mem_map.mp hf with ⟨f0, hf0, rfl⟩
    rcases List.mem_map.mp hf0 with ⟨k, hk, rfl⟩
    rcases List.mem_map.mp hi with ⟨j, hj, rfl⟩
    rcases faceAnchors_mem input.width input.height k hk with
      ⟨r, cc, hr, hcc, rfl⟩
    simp only [List.mem_cons, List.not_mem_nil, or_false] at hj
    exact anchor_index_bound input.width input.height r cc j hr hcc
      (by tauto)
  | false =>
    rw [buildFaces_tri_eq] at hf
    rcases List.mem_map.mp hf with ⟨f0, hf0, rfl⟩
    rcases List.mem_flatten.mp hf0 with ⟨pair, hpair, hf0mem⟩
    rcases List.mem_map.mp hpair with ⟨k, hk, rfl⟩
    rcases List.mem_map.mp hi with ⟨j, hj, rfl⟩
    rcases faceAnchors_mem input.width input.height k hk with
      ⟨r, cc, hr, hcc, rfl⟩
    simp only [List.mem_cons, List.not_mem_nil, or_false] at hf0mem
    rcases hf0mem with rfl | rfl <;>
      simp only [List.mem_cons, List.not_mem_nil, or_false] at hj <;>
      exact anchor_index_bound input.width input.height r cc j hr hcc
        (by tauto)

/-- Closed instantiation of the C8 theorem on the demo raster: index 4 of the
first triangle lies within [1, 4]. -/
theorem c8_face_index_range_witness :
    1 ≤ 4 ∧ 4 ≤ demoRaster.width * demoRaster.height :=
  c8_face_index_range demoRaster "dem.tif" none false [1, 3, 4] (by decide)
    4 (by decide)

/-! ### Lemmas about the mesh writer -/

theorem npCol_xyzFind (v : Vec3) (ch : Char) :
    npCol v (xyzFind ch) = .ok (axisComp v ch) := by
  unfold xyzFind axisComp
  split_ifs <;> rfl

theorem mapM_ok_of_eq {α β : Type} (g : α → Except PyError β) (f : α → β)
    (l : List α) (h : ∀ a, g a = .ok (f a)) :
    l.mapM g = .ok (l.map f) := by
  induction l with
  | nil => rfl
  | cons a t ih =>
    rw [List.mapM_cons, h a, ih]
    rfl

theorem colReorder_npArray (vs : List Vec3) (c0 c1 c2 : Char) :
    VertStore.colReorder (.npArray vs) [xyzFind c0, xyzFind c1, xyzFind c2] =
      .ok (vs.map fun v => [axisComp v c0, axisComp v c1, axisComp v c2]) := by
  unfold VertStore.colReorder
  refine mapM_ok_of_eq _ _ vs fun v => ?_
  rw [List.mapM_cons, List.mapM_cons, List.mapM_cons, List.mapM_nil,
    npCol_xyzFind, npCol_xyzFind, npCol_xyzFind]
  rfl

/-- write_obj on a built object (vertices a numpy array) with an order string
of at least three characters: no validation happens; each output column j is
the component selected by the find-based lookup of the j-th order character
(an unknown character resolving to the z column through index -1). -/
theorem write_obj_resolved (o : Object3D) (vs : List Vec3) (order : String)
    (c0 c1 c2 : Char) (rest : List Char)
    (hv : o.vertices = .npArray vs)
    (ho : order.toList = c0 :: c1 :: c2 :: rest) :
    o.write_obj order = .ok (objHeader o.inputfile order vs.length
        o.faces.length
      ++ String.intercalate "\n" (vs.map fun v =>
          vLine [axisComp v c0, axisComp v c1, axisComp v c2])
      ++ "\n" ++ String.intercalate "\n" (o.faces.map fLine)) := by
  unfold Object3D.write_obj
  rw [ho, hv]
  simp only [List.getElem?_cons_zero, List.getElem?_cons_succ,
    colReorder_npArray, VertStore.len, List.map_map]
  rfl

/-- Evaluation of the build pipeline on the concrete 2-by-2 demo raster. -/
theorem demo_from_raster :
    Object3D.from_raster demoRaster "dem.tif" none false = demoBuilt := by
  simp [Object3D.from_raster, Object3D.create_face_array_from_raster,
    Object3D.create_vertex_array_from_raster, Object3D.init, autoOffset,
    buildVertices, rasterX, rasterY, demoRaster, demoBuilt, affineCoords,
    pyMin, meshgridXX, meshgridYY, elevMatrix, stackReshapeTranspose, zip3,
    List.range_succ, buildFaces, faceAnchors]

/-- C4: on a built object, writing with an order string that is a permutation
of xyz puts in column j of every v record the vertex component named by the
j-th character of the order string; in particular order xyz reproduces the raw
(x, y, z) tuples and order yzx gives the (y, z, x) tuples. -/
theorem c4_axis_order (o : Object3D) (vs : List Vec3) (order : String)
    (c0 c1 c2 : Char)
    (hv : o.vertices = .npArray vs)
    (ho : order.toList = [c0, c1, c2])
    (h0 : c0 = 'x' ∨ c0 = 'y' ∨ c0 = 'z')
    (h1 : c1 = 'x' ∨ c1 = 'y' ∨ c1 = 'z')
    (h2 : c2 = 'x' ∨ c2 = 'y' ∨ c2 = 'z')
    (h01 : c0 ≠ c1) (h02 : c0 ≠ c2) (h12 : c1 ≠ c2) :
    o.write_obj order = .ok (objHeader o.inputfile order vs.length
        o.faces.length
      ++ String.intercalate "\n" (vs.map fun v =>
          vLine [axisComp v c0, axisComp v c1, axisComp v c2])
      ++ "\n" ++ String.intercalate "\n" (o.faces.map fLine)) :=
  write_obj_resolved o vs order c0 c1 c2 [] hv ho

/-- Closed instantiation of the C4 theorem: writing the built demo object
with order yzx. -/
theorem c4_axis_order_witness :
    (Object3D.from_raster demoRaster "dem.tif" none false).write_obj "yzx" =
      .ok (objHeader "dem.tif" "yzx" 4 2
        ++ String.intercalate "\n"
          (([(0, 1, 10), (1, 1, 20), (0, 0, 30), (1, 0, 40)] :
              List Vec3).map fun v =>
            vLine [axisComp v 'y', axisComp v 'z', axisComp v 'x'])
        ++ "\n" ++ String.intercalate "\n"
          (([[1, 3, 4], [1, 4, 2]] : List (List Nat)).map fLine)) :=
  c4_axis_order _ [(0, 1, 10), (1, 1, 20), (0, 0, 30), (1, 0, 40)] "yzx"
    'y' 'z' 'x' (by rw [demo_from_raster]; rfl) rfl
    (by decide) (by decide) (by decide) (by decide) (by decide) (by decide)

/-- C5 counterexample: the order string zzz is not a permutation of xyz, yet
write_obj performs no validation and succeeds, emitting the z component in all
three columns of every v record instead of failing fast. -/
theorem c5_counterexample :
    (Object3D.from_raster demoRaster "dem.tif" none false).write_obj "zzz" =
      .ok ("# Tessellation generated from file: \x27dem.tif\x27\n# vertex coordinates order: zzz\n# Vertices: 4\n# Faces: 2\nv 10 10 10\nv 20 20 20\nv 30 30 30\nv 40 40 40\nf 1 3 4\nf 1 4 2") := by
  rw [demo_from_raster]
  rfl

/-- C5 (amended): the write operation does not validate the order string: on
a built object any order string of at least three characters succeeds, each
output column being resolved by the find-based lookup (characters outside xyz
resolve to the z column through index -1); no ConfigError-class failure
exists. -/
theorem c5_no_validation (o : Object3D) (vs : List Vec3) (order : String)
    (c0 c1 c2 : Char) (rest : List Char)
    (hv : o.vertices = .npArray vs)
    (ho : order.toList = c0 :: c1 :: c2 :: rest) :
    (o.write_obj order).isOk = true := by
  rw [write_obj_resolved o vs order c0 c1 c2 rest hv ho]
  rfl

/-- Closed instantiation of the amended C5 theorem at the invalid order
string abc. -/
theorem c5_no_validation_witness :
    ((Object3D.from_raster demoRaster "dem.tif" none false).write_obj
      "abc").isOk = true :=
  c5_no_validation _ [(0, 1, 10), (1, 1, 20), (0, 0, 30), (1, 0, 40)] "abc"
    'a' 'b' 'c' [] (by rw [demo_from_raster]; rfl) rfl

/-- C6 counterexample: writing an Object3D that was constructed but never
built raises TypeError (the vertices attribute is still a plain Python list,
which does not support the two-dimensional column-reordering indexing), so no
degenerate empty-mesh output is produced. -/
theorem c6_counterexample :
    Object3D.init.write_obj "yzx" = .error .typeError := rfl

/-- C6 (amended): calling write_obj on the Empty state raises TypeError for
every order string of at least three characters, instead of producing a
header-only degenerate output. -/
theorem c6_empty_write_raises (order : String) (c0 c1 c2 : Char)
    (rest : List Char) (ho : order.toList = c0 :: c1 :: c2 :: rest) :
    Object3D.init.write_obj order = .error .typeError := by
  unfold Object3D.write_obj
  rw [ho]
  simp only [List.getElem?_cons_zero, List.getElem?_cons_succ]
  rfl

/-- Closed instantiation of the amended C6 theorem at order xyz. -/
theorem c6_empty_write_raises_witness :
    Object3D.init.write_obj "xyz" = .error .typeError :=
  c6_empty_write_raises "xyz" 'x' 'y' 'z' [] rfl

theorem zip3_snd_mem (xs ys zs : List ℚ) (v : Vec3) (h : v ∈ zip3 xs ys zs) :
    v.2.1 ∈ ys := by
  induction xs generalizing ys zs with
  | nil => cases ys <;> cases zs <;> simp [zip3] at h
  | cons a0 as ih =>
    cases ys with
    | nil => simp [zip3] at h
    | cons b0 bs =>
      cases zs with
      | nil => simp [zip3] at h
      | cons c0 cs =>
        simp only [zip3, List.mem_cons] at h
        rcases h with h | h
        · subst h; simp
        · exact List.mem_cons_of_mem _ (ih bs cs h)

/-- C7 counterexample: on a raster whose transform has pixelSizeX = 0 the
build does not fail: vertex generation runs and produces the full vertex
array (all x coordinates equal after the auto offset), so no
GeometryError-class check precedes it. -/
theorem c7_counterexample :
    (Object3D.from_raster flatRaster "flat.tif" none false).vertices =
      .npArray [(0, 1, 0), (0, 1, 1), (0, 0, 2), (0, 0, 3)] := by
  simp [Object3D.from_raster, Object3D.create_face_array_from_raster,
    Object3D.create_vertex_array_from_raster, Object3D.init, autoOffset,
    buildVertices, rasterX, rasterY, flatRaster, affineCoords, pyMin,
    meshgridXX, meshgridYY, elevMatrix, stackReshapeTranspose, zip3,
    List.range_succ]
  norm_num [zip3]

/-- C7 (amended): the build operation performs no degenerate-transform check:
with a zero pixel size it succeeds and produces the usual width*height
vertices, whose x (respectively y) coordinates are then all equal to 0 after
the auto offset; nothing divides by the pixel size. -/
theorem c7_no_degenerate_check (input : Raster) (fname : String) (quad : Bool)
    (hW : 1 ≤ input.width) (hH : 1 ≤ input.height) :
    ((Object3D.from_raster input fname none quad).vertices).toList.length =
      input.width * input.height ∧
    (input.transform.pixelSizeX = 0 →
      ∀ v ∈ ((Object3D.from_raster input fname none quad).vertices).toList,
        v.1 = 0) ∧
    (input.transform.pixelSizeY = 0 →
      ∀ v ∈ ((Object3D.from_raster input fname none quad).vertices).toList,
        v.2.1 = 0) := by
  have htl : ((Object3D.from_raster input fname none quad).vertices).toList =
      buildVertices input (autoOffset input) := by
    rw [from_raster_vertices]
    rfl
  refine ⟨?_, ?_, ?_⟩
  · rw [htl, buildVertices_length]; ring
  · intro hsx v hv
    rw [htl] at hv
    simp only [buildVertices, stackReshapeTranspose] at hv
    have h1 : v.1 ∈ ((rasterX input).map fun q => q - (autoOffset input).1)
        := by
      have h2 := zip3_fst_mem _ _ _ v hv
      rcases List.mem_flatten.mp h2 with ⟨row, hrow, hmem⟩
      simp only [meshgridXX] at hrow
      rcases List.mem_map.mp hrow with ⟨_, _, rfl⟩
      exact hmem
    rcases List.mem_map.mp h1 with ⟨q, hq, hfq⟩
    have hqval : q = input.transform.originX := by
      rcases (affineCoords_mem _ _ _ _).mp hq with ⟨i, _, rfl⟩
      rw [hsx]; ring
    have hmin : (autoOffset input).1 = input.transform.originX := by
      have hm := pyMin_mem _ (rasterX_ne_nil input hW)
      rcases (affineCoords_mem _ _ _ _).mp hm with ⟨i, _, hq2⟩
      show pyMin (rasterX input) = _
      rw [hq2, hsx]; ring
    rw [← hfq, hqval, hmin]; ring
  · intro hsy v hv
    rw [htl] at hv
    simp only [buildVertices, stackReshapeTranspose] at hv
    have h1 : v.2.1 ∈ ((rasterY input).map fun q => q - (autoOffset input).2.1)
        := by
      have h2 := zip3_snd_mem _ _ _ v hv
      rcases List.mem_flatten.mp h2 with ⟨row, hrow, hmem⟩
      simp only [meshgridYY] at hrow
      rcases List.mem_map.mp hrow with ⟨q0, hq0, rfl⟩
      rw [List.eq_of_mem_replicate hmem]
      exact hq0
    rcases List.mem_map.mp h1 with ⟨q, hq, hfq⟩
    have hqval : q = input.transform.originY := by
      rcases (affineCoords_mem _ _ _ _).mp hq with ⟨i, _, rfl⟩
      rw [hsy]; ring
    have hmin : (autoOffset input).2.1 = input.transform.originY := by
      have hm := pyMin_mem _ (rasterY_ne_nil input hH)
      rcases (affineCoords_mem _ _ _ _).mp hm with ⟨i, _, hq2⟩
      show pyMin (rasterY input) = _
      rw [hq2, hsy]; ring
    rw [← hfq, hqval, hmin]; ring

/-- Closed instantiation of the amended C7 theorem on the zero-pixel-size
raster. -/
theorem c7_no_degenerate_check_witness :
    ((Object3D.from_raster flatRaster "flat.tif" none false).vertices
      ).toList.length = flatRaster.width * flatRaster.height ∧
    (flatRaster.transform.pixelSizeX = 0 →
      ∀ v ∈ ((Object3D.from_raster flatRaster "flat.tif" none false).vertices
        ).toList, v.1 = 0) ∧
    (flatRaster.transform.pixelSizeY = 0 →
      ∀ v ∈ ((Object3D.from_raster flatRaster "flat.tif" none false).vertices
        ).toList, v.2.1 = 0) :=
  c7_no_degenerate_check flatRaster "flat.tif" false (by decide) (by decide)

/-- C9: building with an explicitly supplied offset equal to the
auto-computed default (min of the per-column x, min of the per-row y, 0)
produces an object identical to building with no offset supplied, in
particular an identical vertex array. -/
theorem c9_offset_idempotent (input : Raster) (fname : String) (quad : Bool) :
    Object3D.from_raster input fname
        (some (pyMin (rasterX input), pyMin (rasterY input), 0)) quad =
      Object3D.from_raster input fname none quad := rfl

/-- C10: the serialized output of the demo object consists of the four header
lines, one v record per vertex and one f record per face separated by single
newlines, but no blank separator line between the vertex block and the face
block: the single newline written after the newline-joined vertex records only
terminates the last v record. -/
theorem c10_serialized_output :
    (Object3D.from_raster demoRaster "dem.tif" none false).write_obj "xyz" =
      .ok ("# Tessellation generated from file: \x27dem.tif\x27\n# vertex coordinates order: xyz\n# Vertices: 4\n# Faces: 2\nv 0 1 10\nv 1 1 20\nv 0 0 30\nv 1 0 40\nf 1 3 4\nf 1 4 2") := by
  rw [demo_from_raster]
  rfl

end Object3dSpec
